import Mathlib

set_option maxHeartbeats 1000000

/-!
Shallow embedding of the renderer data-marshalling layer of Easy3D
(src/easy3d/viewer/renderer.cpp), together with proofs about it.

Modelling conventions:
- geometric scalars (float coordinates, colors, sizes) are rationals;
- GPU buffers are Lean lists; uploading a buffer replaces the list;
- named model properties are Option-valued fields (None = absent);
- external collaborators that renderer.cpp merely calls — the polygon
  tessellator, the random color source, SurfaceMesh's per-vertex normal
  recompute (update_vertex_normals), and the configuration constants in
  easy3d/viewer/setting.h — are parameters of the marshalling functions,
  matching the external-interface contract of the specification;
- the fan-triangulation while loop of renderer.cpp is fuel-bounded;
  fuel nh + 1 exceeds the length of any closed halfedge cycle, so on a
  well-formed mesh the fueled loop agrees with the source loop.
-/

abbrev Vec3 := Rat × Rat × Rat

abbrev Vec2 := Rat × Rat

def black : Vec3 := (0, 0, 0)

/-- Halfedge connectivity and geometry of a surface mesh: the part of the
external SurfaceMesh structure that renderer.cpp reads and never writes.
Vertices, halfedges and faces are identified by natural-number handles;
`faces` lists the face handles in iteration order, `edges` the endpoint
pairs (vertex(e,0), vertex(e,1)) of the edges in iteration order. -/
structure MeshCore where
  nv : Nat
  nh : Nat
  points : List Vec3
  faces : List Nat
  halfedge : Nat → Nat
  next_halfedge : Nat → Nat
  to_vertex : Nat → Nat
  from_vertex : Nat → Nat
  edges : List (Nat × Nat)

/-- A surface mesh: immutable core plus the named properties renderer.cpp
looks up (absent properties are `none`).  `franges` models the per-face
property f:triangle_range as a list parallel to `core.faces`; the marshal
writes every face's entry, so wholesale replacement is faithful. -/
structure SurfaceMesh where
  core : MeshCore
  vnormal : Option (List Vec3)
  vcolor : Option (List Vec3)
  vtexcoord : Option (List Vec2)
  fcolor : Option (Nat → Vec3)
  franges : Option (List (Int × Int))

/-- GPU-side state of a TrianglesDrawable: the buffers and flags that
update_data(SurfaceMesh*, TrianglesDrawable*) can write.  `index_buffer =
none` models a released element buffer (non-indexed drawing). -/
structure TrianglesDrawable where
  vertex_buffer : List Vec3
  normal_buffer : List Vec3
  color_buffer : List Vec3
  texcoord_buffer : List Vec2
  index_buffer : Option (List Nat)
  per_vertex_color : Bool

/-- Body of the fan-triangulation while loop of renderer.cpp lines 198-206:
starting from halfedge `cur`, while `cur` differs from `start` emit the
index triple (va, from_vertex cur, to_vertex cur) and advance `cur` to its
next halfedge, counting one triangle per step.  The loop is fuel-bounded;
renderer.cpp's loop terminates exactly when the cycle returns to `start`,
which on a well-formed mesh happens within `nh` steps. -/
def fanLoop (m : MeshCore) (va start : Nat) : Nat → Nat → List Nat × Nat
  | 0, _ => ([], 0)
  | fuel + 1, cur =>
    if cur = start then ([], 0)
    else
      let r := fanLoop m va start fuel (m.next_halfedge cur)
      (va :: m.from_vertex cur :: m.to_vertex cur :: r.1, r.2 + 1)

/-- Indices and triangle count the fan triangulation emits for one face
(renderer.cpp lines 194-206): va = to_vertex(halfedge(face)), cur starts
at next(next(halfedge(face))). -/
def fanResult (m : MeshCore) (f : Nat) : List Nat × Nat :=
  let start := m.halfedge f
  fanLoop m (m.to_vertex start) start (m.nh + 1)
    (m.next_halfedge (m.next_halfedge start))

def fanIndices (m : MeshCore) (f : Nat) : List Nat := (fanResult m f).1

def numTriB (m : MeshCore) (f : Nat) : Nat := (fanResult m f).2

/-- Per-vertex branch (Branch B) face loop of renderer.cpp lines 192-210:
walk the faces, accumulate fan indices, assign each face the inclusive
range (count, count + num - 1) and advance the counter.  Returns the index
stream, the f:triangle_range values in face order, and the final counter. -/
def loopB (m : MeshCore) : List Nat → Nat → List Nat × List (Int × Int) × Nat
  | [], count => ([], [], count)
  | f :: fs, count =>
    let r := fanResult m f
    let rest := loopB m fs (count + r.2)
    (r.1 ++ rest.1,
     ((count : Int), (count : Int) + (r.2 : Int) - 1) :: rest.2.1,
     rest.2.2)

/-- Output of the external tessellator for one polygon contour (the
contract of §4.2 of the specification): an array of vertex payloads, each
carrying an interpolated position and normal, and a list of triangles as
index triples into that array. -/
structure TessOut where
  verts : List (Vec3 × Vec3)
  tris : List (Nat × Nat × Nat)

def vdef : Vec3 × Vec3 := (black, black)

/-- Triangle expansion of renderer.cpp lines 154-161: for each tessellator
triangle (a,b,c) append the three payload positions to the position
stream, the three payload normals to the normal stream, and three copies
of the face color to the color stream. -/
def triExpand (vts : List (Vec3 × Vec3)) (fc : Vec3) :
    List (Nat × Nat × Nat) → List Vec3 × List Vec3 × List Vec3
  | [] => ([], [], [])
  | t :: ts =>
    let rest := triExpand vts fc ts
    ((vts.getD t.1 vdef).1 :: (vts.getD t.2.1 vdef).1 ::
       (vts.getD t.2.2 vdef).1 :: rest.1,
     (vts.getD t.1 vdef).2 :: (vts.getD t.2.1 vdef).2 ::
       (vts.getD t.2.2 vdef).2 :: rest.2.1,
     fc :: fc :: fc :: rest.2.2)

/-- Accumulated output of the per-face-color branch (Branch A). -/
structure StreamsA where
  pts : List Vec3
  nrms : List Vec3
  cols : List Vec3
  rngs : List (Int × Int)
  total : Nat

/-- Per-face-color branch (Branch A) face loop of renderer.cpp lines
138-164: tessellate each face, expand its triangles into the flat streams,
assign the face the inclusive range (count, count + num - 1) and advance
the counter.  The tessellation of a face is the external tessellator's
output `tess f`. -/
def loopA (tess : Nat → TessOut) (fc : Nat → Vec3) :
    List Nat → Nat → StreamsA
  | [], count => { pts := [], nrms := [], cols := [], rngs := [], total := count }
  | f :: fs, count =>
    let t := tess f
    let e := triExpand t.verts (fc f) t.tris
    let rest := loopA tess fc fs (count + t.tris.length)
    { pts := e.1 ++ rest.pts,
      nrms := e.2.1 ++ rest.nrms,
      cols := e.2.2 ++ rest.cols,
      rngs := ((count : Int), (count : Int) + (t.tris.length : Int) - 1) :: rest.rngs,
      total := rest.total }

/-- Result of one call of update_data(SurfaceMesh*, TrianglesDrawable*):
the updated model and drawable, the final value of the local counter
count_triangles, and how many times the model's per-vertex normal
recompute (update_vertex_normals) was invoked during the call. -/
structure TriMarshalOut where
  model : SurfaceMesh
  drawable : TrianglesDrawable
  count_triangles : Nat
  normal_recomputes : Nat

/-- update_data(SurfaceMesh*, TrianglesDrawable*), renderer.cpp lines
109-213.  `recompute` is the external update_vertex_normals, a function of
the mesh core only (it recomputes averaged geometric normals from points
and connectivity); `tess` is the external tessellator.  Line 130 calls
update_vertex_normals unconditionally before the branch; lines 183-187 of
Branch B refetch v:normal and would recompute again were it absent, which
it never is at that point. -/
def update_data_mesh_triangles (recompute : MeshCore → List Vec3)
    (tess : Nat → TessOut) (m : SurfaceMesh) (d : TrianglesDrawable) :
    TriMarshalOut :=
  let vn1 : Option (List Vec3) := some (recompute m.core)
  match m.fcolor with
  | some fc =>
    let r := loopA tess fc m.core.faces 0
    { model := { m with vnormal := vn1, franges := some r.rngs },
      drawable := { d with
        vertex_buffer := r.pts,
        normal_buffer := r.nrms,
        color_buffer := r.cols,
        per_vertex_color := true,
        index_buffer := none },
      count_triangles := r.total,
      normal_recomputes := 1 }
  | none =>
    let cb := match m.vcolor with | some cs => cs | none => d.color_buffer
    let pvc := match m.vcolor with | some _ => true | none => d.per_vertex_color
    let tb := match m.vtexcoord with | some ts => ts | none => d.texcoord_buffer
    let en : List Vec3 × Nat := match vn1 with
      | some ns => (ns, 0)
      | none => (recompute m.core, 1)
    let r := loopB m.core m.core.faces 0
    { model := { m with vnormal := vn1, franges := some r.2.1 },
      drawable := { d with
        vertex_buffer := m.core.points,
        normal_buffer := en.1,
        color_buffer := cb,
        texcoord_buffer := tb,
        per_vertex_color := pvc,
        index_buffer := some r.1 },
      count_triangles := r.2.2,
      normal_recomputes := 1 + en.2 }

/-- A point cloud: points plus the named properties renderer.cpp looks up. -/
structure PointCloud where
  points : List Vec3
  vnormal : Option (List Vec3)
  vcolor : Option (List Vec3)
  ptype : Option (List Int)
  pindex : Option (List Int)

inductive PointsImpostor | plain | sphere | surfel
deriving DecidableEq

/-- GPU-side state of a PointsDrawable. -/
structure PointsDrawable where
  vertex_buffer : List Vec3
  normal_buffer : List Vec3
  color_buffer : List Vec3
  default_color : Vec3
  per_vertex_color : Bool
  point_size : Rat
  impostor : PointsImpostor

/-- Configuration constants read from easy3d/viewer/setting.h. -/
structure Settings where
  point_cloud_points_color : Vec3
  surface_mesh_vertices_color : Vec3
  surface_mesh_vertices_point_size : Rat
  surface_mesh_edges_color : Vec3
  surface_mesh_edges_line_width : Rat

/-- The fold of renderer.cpp lines 52-54: num starts at 0 and takes the
max with every vertex's primitive_index. -/
def maxIndex (ids : List Int) : Int := ids.foldl max 0

/-- Per-vertex color emission of renderer.cpp lines 62-68: walking the
vertices, emit (0,0,0) when primitive_type is -1, else the color-table
entry at primitive_index. -/
def segColors (tbl : List Vec3) : List Int → List Int → List Vec3
  | ty :: tys, idx :: idxs =>
    (if ty = -1 then black else tbl.getD idx.toNat black) :: segColors tbl tys idxs
  | _, _ => []

/-- update_data(PointCloud*, PointsDrawable*), renderer.cpp lines 42-95.
`rng` is the external random color source: color_table entry i is the
(i+1)-st color drawn from the process-wide generator, so fixing `rng`
models a fixed RNG seed. -/
def update_data_pointcloud_points (st : Settings) (rng : Nat → Vec3)
    (m : PointCloud) (d : PointsDrawable) : PointsDrawable :=
  match m.ptype, m.pindex with
  | some tys, some ids =>
    let num := (maxIndex ids + 1).toNat
    let color_table := (List.range num).map rng
    let colors := segColors color_table tys ids
    { d with
      color_buffer := colors,
      per_vertex_color := true,
      vertex_buffer := m.points,
      normal_buffer := match m.vnormal with | some ns => ns | none => d.normal_buffer }
  | _, _ =>
    { d with
      vertex_buffer := m.points,
      normal_buffer := (match m.vnormal with | some ns => ns | none => d.normal_buffer),
      color_buffer := (match m.vcolor with | some cs => cs | none => d.color_buffer),
      per_vertex_color := (match m.vcolor with | some _ => true | none => false),
      default_color := (match m.vcolor with
        | some _ => d.default_color
        | none => st.point_cloud_points_color) }

/-- update_data(SurfaceMesh*, PointsDrawable*), renderer.cpp lines 99-106. -/
def update_data_mesh_points (st : Settings) (m : SurfaceMesh)
    (d : PointsDrawable) : PointsDrawable :=
  { d with
    vertex_buffer := m.core.points,
    default_color := st.surface_mesh_vertices_color,
    per_vertex_color := false,
    point_size := st.surface_mesh_vertices_point_size,
    impostor := PointsImpostor.sphere }

inductive LinesImpostor | plain | cylinder | cone
deriving DecidableEq

/-- GPU-side state of a LinesDrawable. -/
structure LinesDrawable where
  vertex_buffer : List Vec3
  index_buffer : List Nat
  default_color : Vec3
  per_vertex_color : Bool
  line_width : Rat
  impostor : LinesImpostor

/-- Edge index emission shared by the two line marshallers: two endpoint
indices per edge, in edge order. -/
def edgeIndices : List (Nat × Nat) → List Nat
  | [] => []
  | e :: es => e.1 :: e.2 :: edgeIndices es

/-- update_data(SurfaceMesh*, LinesDrawable*), renderer.cpp lines 216-230. -/
def update_data_mesh_lines (st : Settings) (m : SurfaceMesh)
    (d : LinesDrawable) : LinesDrawable :=
  { d with
    vertex_buffer := m.core.points,
    index_buffer := edgeIndices m.core.edges,
    default_color := st.surface_mesh_edges_color,
    per_vertex_color := false,
    line_width := st.surface_mesh_edges_line_width }

/-- A graph: points plus directed edges (from-vertex, to-vertex). -/
structure Graph where
  points : List Vec3
  edges : List (Nat × Nat)

/-- update_data(Graph*, PointsDrawable*), renderer.cpp lines 234-241. -/
def update_data_graph_points (m : Graph) (d : PointsDrawable) : PointsDrawable :=
  { d with
    vertex_buffer := m.points,
    per_vertex_color := false,
    default_color := (1, 0, 0),
    point_size := 15,
    impostor := PointsImpostor.sphere }

/-- update_data(Graph*, LinesDrawable*), renderer.cpp lines 244-259.
Color literals are the float literals of the source read as rationals. -/
def update_data_graph_lines (m : Graph) (d : LinesDrawable) : LinesDrawable :=
  { d with
    vertex_buffer := m.points,
    index_buffer := edgeIndices m.edges,
    per_vertex_color := false,
    default_color := (1, 67/100, 1/2),
    line_width := 3,
    impostor := LinesImpostor.cylinder }

/-- Structural well-formedness of a mesh core: the v:point vector has one
entry per vertex, face anchor halfedges are valid halfedge handles, and
the connectivity functions respect the handle ranges. -/
def MeshWF (m : MeshCore) : Prop :=
  m.points.length = m.nv ∧
  (∀ f ∈ m.faces, m.halfedge f < m.nh) ∧
  (∀ h < m.nh, m.next_halfedge h < m.nh ∧ m.to_vertex h < m.nv ∧
    m.from_vertex h < m.nv)

instance (m : MeshCore) : Decidable (MeshWF m) := by
  unfold MeshWF; infer_instance

/-- What a call of one update_data overload does before (or instead of)
completing: an assert fires, a null pointer or invalid property handle is
dereferenced (undefined behavior in the source), or the call runs to
completion. -/
inductive CallOutcome | assertFailure | nullDeref | completes
deriving DecidableEq

/-- Precondition skeleton of update_data(PointCloud*, PointsDrawable*):
lines 43-44 assert the model and the drawable; a missing v:point is first
dereferenced at line 73 or 81 (points.vector() on an invalid handle). -/
def pointcloud_points_guard (model_null drawable_null has_vpoint : Bool) :
    CallOutcome :=
  if model_null then CallOutcome.assertFailure
  else if drawable_null then CallOutcome.assertFailure
  else if has_vpoint then CallOutcome.completes
  else CallOutcome.nullDeref

/-- Precondition skeleton of update_data(SurfaceMesh*, PointsDrawable*),
lines 99-106: no asserts; a null model is dereferenced at line 100, a null
drawable at line 101, a missing v:point via points.vector() at line 101. -/
def mesh_points_guard (model_null drawable_null has_vpoint : Bool) :
    CallOutcome :=
  if model_null || drawable_null || !has_vpoint then CallOutcome.nullDeref
  else CallOutcome.completes

/-- Precondition skeleton of update_data(SurfaceMesh*, TrianglesDrawable*):
lines 110-111 assert the model and the drawable; a missing v:point is
dereferenced in either branch (line 144 or line 173). -/
def mesh_triangles_guard (model_null drawable_null has_vpoint : Bool) :
    CallOutcome :=
  if model_null then CallOutcome.assertFailure
  else if drawable_null then CallOutcome.assertFailure
  else if has_vpoint then CallOutcome.completes
  else CallOutcome.nullDeref

/-- Precondition skeleton of update_data(SurfaceMesh*, LinesDrawable*),
lines 216-230: no asserts, direct dereference of both pointers and of the
v:point handle. -/
def mesh_lines_guard (model_null drawable_null has_vpoint : Bool) :
    CallOutcome :=
  if model_null || drawable_null || !has_vpoint then CallOutcome.nullDeref
  else CallOutcome.completes

/-- Precondition skeleton of update_data(Graph*, PointsDrawable*), lines
234-241: no asserts. -/
def graph_points_guard (model_null drawable_null has_vpoint : Bool) :
    CallOutcome :=
  if model_null || drawable_null || !has_vpoint then CallOutcome.nullDeref
  else CallOutcome.completes

/-- Precondition skeleton of update_data(Graph*, LinesDrawable*), lines
244-259: no asserts. -/
def graph_lines_guard (model_null drawable_null has_vpoint : Bool) :
    CallOutcome :=
  if model_null || drawable_null || !has_vpoint then CallOutcome.nullDeref
  else CallOutcome.completes

/-- Counter-threaded range assignment shared by both branch loops: face i
gets the inclusive range starting at the running counter and the counter
advances by the face's triangle count. -/
def scanRanges : List Nat → Nat → List (Int × Int)
  | [], _ => []
  | n :: ns, c => (((c : Int)), (c : Int) + (n : Int) - 1) :: scanRanges ns (c + n)

/-- Membership of a triangle index in an inclusive range. -/
def containsT (r : Int × Int) (t : Int) : Bool := decide (r.1 ≤ t ∧ t ≤ r.2)

/-- How many of the ranges contain the triangle index t. -/
def countIn (rngs : List (Int × Int)) (t : Int) : Nat :=
  (rngs.filter (fun r => containsT r t)).length

/-- Sum of the first i entries: the counter value when face i is reached. -/
def sumBefore (nums : List Nat) (i : Nat) : Nat := (nums.take i).sum

/-- Per-face triangle counts of the branch the marshal will take: the
tessellator's count in Branch A, the fan count in Branch B. -/
def branchNums (tess : Nat → TessOut) (m : SurfaceMesh) : List Nat :=
  match m.fcolor with
  | some _ => m.core.faces.map (fun f => (tess f).tris.length)
  | none => m.core.faces.map (numTriB m.core)

/-- Mesh of scenario S3: a single convex quad with vertices 0-3, halfedge
handles 0-3 forming one face cycle with to_vertex h = h. -/
def quadCore : MeshCore where
  nv := 4
  nh := 4
  points := [(0, 0, 0), (1, 0, 0), (1, 1, 0), (0, 1, 0)]
  faces := [0]
  halfedge := fun _ => 0
  next_halfedge := fun h => (h + 1) % 4
  to_vertex := fun h => h % 4
  from_vertex := fun h => (h + 3) % 4
  edges := [(0, 1), (1, 2), (2, 3), (3, 0)]

/-- The quad mesh with no optional properties (Branch B, no v:color). -/
def quadMesh : SurfaceMesh where
  core := quadCore
  vnormal := none
  vcolor := none
  vtexcoord := none
  fcolor := none
  franges := none

/-- A concrete stand-in for the external per-vertex normal recompute. -/
def recompute0 : MeshCore → List Vec3 := fun core =>
  core.points.map (fun _ => (0, 0, 1))

/-- A concrete stand-in for the external tessellator. -/
def tess0 : Nat → TessOut := fun _ => { verts := [], tris := [] }

/-- Concrete configuration constants for witnesses. -/
def st0 : Settings where
  point_cloud_points_color := (85/100, 17/20, 17/20)
  surface_mesh_vertices_color := (0, 1, 0)
  surface_mesh_vertices_point_size := 5
  surface_mesh_edges_color := (0, 0, 0)
  surface_mesh_edges_line_width := 1

/-- An initial drawable state for witnesses. -/
def d0 : TrianglesDrawable where
  vertex_buffer := []
  normal_buffer := []
  color_buffer := []
  texcoord_buffer := []
  index_buffer := none
  per_vertex_color := false

/-- The quad mesh with a per-face color, driving Branch A. -/
def quadMeshF : SurfaceMesh where
  core := quadCore
  vnormal := none
  vcolor := none
  vtexcoord := none
  fcolor := some (fun _ => (1, 0, 0))
  franges := none

/-- A concrete tessellator output for the quad: two triangles over four
payload vertices, as a conforming tessellation of a convex quad would be. -/
def tessQuad : Nat → TessOut := fun _ =>
  { verts := [((0, 0, 0), (0, 0, 1)), ((1, 0, 0), (0, 0, 1)),
              ((1, 1, 0), (0, 0, 1)), ((0, 1, 0), (0, 0, 1))],
    tris := [(0, 1, 2), (0, 2, 3)] }

/-- Point cloud of scenario S2: four points with segmentation properties
primitive_type [0,0,1,-1] and primitive_index [0,0,1,0]. -/
def pcSeg : PointCloud where
  points := [(0, 0, 0), (1, 0, 0), (0, 1, 0), (0, 0, 1)]
  vnormal := none
  vcolor := none
  ptype := some [0, 0, 1, -1]
  pindex := some [0, 0, 1, 0]

/-- A concrete stand-in for the external random color source. -/
def rng0 : Nat → Vec3 := fun n => ((n + 1 : Nat), 0, 0)

/-- An initial points drawable for witnesses. -/
def dp0 : PointsDrawable where
  vertex_buffer := []
  normal_buffer := []
  color_buffer := []
  default_color := (1, 1, 1)
  per_vertex_color := false
  point_size := 1
  impostor := PointsImpostor.plain

/-- The quad mesh with v:normal already present before the marshal. -/
def quadMeshN : SurfaceMesh where
  core := quadCore
  vnormal := some [(1, 0, 0), (1, 0, 0), (1, 0, 0), (1, 0, 0)]
  vcolor := none
  vtexcoord := none
  fcolor := none
  franges := none

/-- A degenerate single-face mesh whose fan walk emits zero triangles:
the face's halfedge cycle has length one, so cur starts at start. -/
def monoCore : MeshCore where
  nv := 1
  nh := 1
  points := [(0, 0, 0)]
  faces := [0]
  halfedge := fun _ => 0
  next_halfedge := fun _ => 0
  to_vertex := fun _ => 0
  from_vertex := fun _ => 0
  edges := []

/-- The degenerate mesh with no optional properties. -/
def monoMesh : SurfaceMesh where
  core := monoCore
  vnormal := none
  vcolor := none
  vtexcoord := none
  fcolor := none
  franges := none

/-- A concrete point cloud with no optional properties. -/
def pcPlain : PointCloud where
  points := [(0, 0, 0), (1, 0, 0), (0, 1, 0)]
  vnormal := none
  vcolor := none
  ptype := none
  pindex := none

theorem scanRanges_length (ns : List Nat) (c : Nat) :
    (scanRanges ns c).length = ns.length := by
  induction ns generalizing c with
  | nil => rfl
  | cons n ns ih => simp [scanRanges, ih]

theorem countIn_cons (r : Int × Int) (rngs : List (Int × Int)) (t : Int) :
    countIn (r :: rngs) t = (if containsT r t then 1 else 0) + countIn rngs t := by
  unfold countIn
  rw [List.filter_cons]
  by_cases h : containsT r t <;> simp [h, Nat.add_comm]

theorem countIn_scanRanges_lt (ns : List Nat) (c : Nat) (t : Int) (h : t < (c : Int)) :
    countIn (scanRanges ns c) t = 0 := by
  induction ns generalizing c with
  | nil => rfl
  | cons n ns ih =>
    rw [scanRanges, countIn_cons]
    have h1 : containsT ((c : Int), (c : Int) + (n : Int) - 1) t = false := by
      simp only [containsT, decide_eq_false_iff_not]
      intro hc
      omega
    have h2 := ih (c + n) (by push_cast; omega)
    simp [h1, h2]

theorem countIn_scanRanges_one (ns : List Nat) (c : Nat) (t : Int)
    (h1 : (c : Int) ≤ t) (h2 : t < (c : Int) + (ns.sum : Int)) :
    countIn (scanRanges ns c) t = 1 := by
  induction ns generalizing c with
  | nil => simp at h2; omega
  | cons n ns ih =>
    rw [scanRanges, countIn_cons]
    by_cases hc : t ≤ (c : Int) + (n : Int) - 1
    · have hh : containsT ((c : Int), (c : Int) + (n : Int) - 1) t = true := by
        simp only [containsT, decide_eq_true_eq]
        exact ⟨h1, hc⟩
      rw [hh]
      have h0 : countIn (scanRanges ns (c + n)) t = 0 :=
        countIn_scanRanges_lt ns (c + n) t (by push_cast; omega)
      simp [h0]
    · have hh : containsT ((c : Int), (c : Int) + (n : Int) - 1) t = false := by
        simp only [containsT, decide_eq_false_iff_not]
        intro hx
        exact hc hx.2
      rw [hh]
      have := ih (c + n) (by push_cast; omega)
        (by simp only [List.sum_cons, Nat.cast_add] at h2 ⊢; omega)
      simpa using this

theorem scanRanges_mem_bounds (ns : List Nat) (c : Nat) (r : Int × Int)
    (hr : r ∈ scanRanges ns c) :
    (c : Int) ≤ r.1 ∧ r.2 < (c : Int) + (ns.sum : Int) := by
  induction ns generalizing c with
  | nil => simp [scanRanges] at hr
  | cons n ns ih =>
    rw [scanRanges] at hr
    rcases List.mem_cons.mp hr with h | h
    · rw [h]
      simp only
      constructor
      · exact le_refl _
      · simp only [List.sum_cons, Nat.cast_add]
        omega
    · have := ih (c + n) h
      simp only [List.sum_cons, Nat.cast_add] at this ⊢
      omega

theorem fanLoop_length (m : MeshCore) (va start : Nat) (fuel : Nat) :
    ∀ cur, (fanLoop m va start fuel cur).1.length = 3 * (fanLoop m va start fuel cur).2 := by
  induction fuel with
  | zero => intro cur; rfl
  | succ fuel ih =>
    intro cur
    rw [fanLoop]
    by_cases h : cur = start <;> simp [h, ih]
    omega

theorem fanIndices_length (m : MeshCore) (f : Nat) :
    (fanIndices m f).length = 3 * numTriB m f :=
  fanLoop_length m _ _ _ _

theorem loopB_eq (m : MeshCore) (fs : List Nat) (c : Nat) :
    loopB m fs c =
      ((fs.map (fanIndices m)).flatten,
       scanRanges (fs.map (numTriB m)) c,
       c + (fs.map (numTriB m)).sum) := by
  induction fs generalizing c with
  | nil => simp [loopB, scanRanges]
  | cons f fs ih =>
    simp only [loopB, List.map_cons, scanRanges, List.sum_cons, ih,
      fanIndices, numTriB, List.flatten_cons, Prod.mk.injEq]
    refine ⟨trivial, trivial, ?_⟩
    omega

theorem fanLoop_mem_lt (m : MeshCore) (va start : Nat)
    (hva : va < m.nv)
    (hwf : ∀ h < m.nh, m.next_halfedge h < m.nh ∧ m.to_vertex h < m.nv ∧
      m.from_vertex h < m.nv)
    (fuel : Nat) :
    ∀ cur, cur < m.nh → ∀ i ∈ (fanLoop m va start fuel cur).1, i < m.nv := by
  induction fuel with
  | zero => intro cur _ i hi; simp [fanLoop] at hi
  | succ fuel ih =>
    intro cur hcur i hi
    rw [fanLoop] at hi
    by_cases h : cur = start
    · simp [h] at hi
    · simp only [if_neg h, List.mem_cons] at hi
      rcases hi with rfl | rfl | rfl | hi
      · exact hva
      · exact (hwf cur hcur).2.2
      · exact (hwf cur hcur).2.1
      · exact ih (m.next_halfedge cur) (hwf cur hcur).1 i hi

theorem triExpand_lengths (vts : List (Vec3 × Vec3)) (fc : Vec3)
    (ts : List (Nat × Nat × Nat)) :
    (triExpand vts fc ts).1.length = 3 * ts.length ∧
    (triExpand vts fc ts).2.1.length = 3 * ts.length ∧
    (triExpand vts fc ts).2.2.length = 3 * ts.length := by
  induction ts with
  | nil => exact ⟨rfl, rfl, rfl⟩
  | cons t ts ih =>
    simp only [triExpand, List.length_cons, List.length]
    refine ⟨?_, ?_, ?_⟩ <;> simp [ih.1, ih.2.1, ih.2.2] <;> omega

theorem loopA_eq (tess : Nat → TessOut) (fc : Nat → Vec3) (fs : List Nat) (c : Nat) :
    (loopA tess fc fs c).rngs =
        scanRanges (fs.map (fun f => (tess f).tris.length)) c ∧
      (loopA tess fc fs c).total =
        c + (fs.map (fun f => (tess f).tris.length)).sum ∧
      (loopA tess fc fs c).pts.length =
        3 * (fs.map (fun f => (tess f).tris.length)).sum ∧
      (loopA tess fc fs c).nrms.length =
        3 * (fs.map (fun f => (tess f).tris.length)).sum ∧
      (loopA tess fc fs c).cols.length =
        3 * (fs.map (fun f => (tess f).tris.length)).sum := by
  induction fs generalizing c with
  | nil => simp [loopA, scanRanges]
  | cons f fs ih =>
    have h := ih (c + (tess f).tris.length)
    have ht := triExpand_lengths (tess f).verts (fc f) (tess f).tris
    simp only [loopA, List.map_cons, scanRanges, List.sum_cons]
    refine ⟨?_, ?_, ?_, ?_, ?_⟩
    · rw [h.1]
    · rw [h.2.1]; omega
    · simp [ht.1, h.2.2.1]; omega
    · simp [ht.2.1, h.2.2.2.1]; omega
    · simp [ht.2.2, h.2.2.2.2]; omega

theorem sumBefore_succ (ns : List Nat) (i : Nat) (hi : i < ns.length) :
    sumBefore ns (i + 1) = sumBefore ns i + ns.getD i 0 := by
  induction ns generalizing i with
  | nil => simp at hi
  | cons n ns ih =>
    cases i with
    | zero => simp [sumBefore]
    | succ i =>
      have := ih i (by simpa using hi)
      simp only [sumBefore, List.take_succ_cons, List.sum_cons,
        List.getD_cons_succ] at this ⊢
      omega

theorem scanRanges_getD (ns : List Nat) (c : Nat) (i : Nat) (hi : i < ns.length) :
    (scanRanges ns c).getD i ((0 : Int), (0 : Int)) =
      (((c + sumBefore ns i : Nat) : Int),
       ((c + sumBefore ns i : Nat) : Int) + ((ns.getD i 0 : Nat) : Int) - 1) := by
  induction ns generalizing c i with
  | nil => simp at hi
  | cons n ns ih =>
    cases i with
    | zero => simp [scanRanges, sumBefore]
    | succ i =>
      have h := ih (c + n) i (by simpa using hi)
      simp only [scanRanges, List.getD_cons_succ, sumBefore, List.take_succ_cons,
        List.sum_cons] at h ⊢
      rw [Nat.add_assoc] at h
      exact h

theorem branchNums_length (tess : Nat → TessOut) (m : SurfaceMesh) :
    (branchNums tess m).length = m.core.faces.length := by
  unfold branchNums
  cases m.fcolor <;> simp

theorem marshal_franges_eq (recompute : MeshCore → List Vec3)
    (tess : Nat → TessOut) (m : SurfaceMesh) (d : TrianglesDrawable) :
    (update_data_mesh_triangles recompute tess m d).model.franges =
      some (scanRanges (branchNums tess m) 0) ∧
    (update_data_mesh_triangles recompute tess m d).count_triangles =
      (branchNums tess m).sum := by
  rcases m with ⟨core, vn, vc, vt, fcol, fr⟩
  cases fcol with
  | some fc =>
    have h := loopA_eq tess fc core.faces 0
    simp only [update_data_mesh_triangles, branchNums]
    exact ⟨by rw [h.1], by rw [h.2.1]; exact Nat.zero_add _⟩
  | none =>
    have h := loopB_eq core core.faces 0
    simp only [update_data_mesh_triangles, branchNums]
    exact ⟨by rw [h], by rw [h]; exact Nat.zero_add _⟩

theorem flatten_fanIndices_length (m : MeshCore) (fs : List Nat) :
    ((fs.map (fanIndices m)).flatten).length = 3 * (fs.map (numTriB m)).sum := by
  induction fs with
  | nil => rfl
  | cons f fs ih =>
    simp only [List.map_cons, List.flatten_cons, List.length_append, ih,
      fanIndices_length, List.sum_cons]
    omega

theorem fanIndices_mem_lt (m : MeshCore) (hwf : MeshWF m) (f : Nat)
    (hf : f ∈ m.faces) : ∀ i ∈ fanIndices m f, i < m.nv := by
  obtain ⟨_, hface, hh⟩ := hwf
  have hstart : m.halfedge f < m.nh := hface f hf
  have hva : m.to_vertex (m.halfedge f) < m.nv := (hh _ hstart).2.1
  have hcur : m.next_halfedge (m.next_halfedge (m.halfedge f)) < m.nh :=
    (hh _ (hh _ hstart).1).1
  exact fanLoop_mem_lt m _ _ hva hh _ _ hcur

theorem getD_mem_or_default {α : Type} (l : List α) (n : Nat) (d : α) :
    l.getD n d ∈ l ∨ l.getD n d = d := by
  induction l generalizing n with
  | nil => right; rfl
  | cons a l ih =>
    cases n with
    | zero => left; simp
    | succ n =>
      simp only [List.getD_cons_succ]
      rcases ih n with h | h
      · exact Or.inl (List.mem_cons_of_mem a h)
      · exact Or.inr h

theorem segColors_length (tbl : List Vec3) (tys ids : List Int)
    (hlen : tys.length = ids.length) :
    (segColors tbl tys ids).length = tys.length := by
  induction tys generalizing ids with
  | nil => simp [segColors]
  | cons ty tys ih =>
    cases ids with
    | nil => simp at hlen
    | cons idx ids =>
      simp only [segColors, List.length_cons]
      rw [ih ids (by simpa using hlen)]

theorem segColors_getD (tbl : List Vec3) (tys ids : List Int) (i : Nat)
    (hlen : tys.length = ids.length) (hi : i < tys.length) :
    (segColors tbl tys ids).getD i black =
      (if tys.getD i 0 = -1 then black
       else tbl.getD (ids.getD i 0).toNat black) := by
  induction tys generalizing ids i with
  | nil => simp at hi
  | cons ty tys ih =>
    cases ids with
    | nil => simp at hlen
    | cons idx ids =>
      cases i with
      | zero => simp [segColors]
      | succ i =>
        simp only [segColors, List.getD_cons_succ]
        exact ih ids i (by simpa using hlen) (by simpa using hi)

theorem segColors_mem (tbl : List Vec3) (tys ids : List Int) (c : Vec3)
    (hc : c ∈ segColors tbl tys ids) : c = black ∨ c ∈ tbl := by
  induction tys generalizing ids with
  | nil => simp [segColors] at hc
  | cons ty tys ih =>
    cases ids with
    | nil => simp [segColors] at hc
    | cons idx ids =>
      simp only [segColors, List.mem_cons] at hc
      rcases hc with h | h
      · by_cases hty : ty = -1
        · left; simp [hty] at h; exact h
        · rw [if_neg hty] at h
          rcases getD_mem_or_default tbl idx.toNat black with hm | hm
          · right; rw [h]; exact hm
          · left; rw [h]; exact hm
      · exact ih ids h

theorem foldl_max_init_le (ids : List Int) (a : Int) : a ≤ ids.foldl max a := by
  induction ids generalizing a with
  | nil => exact le_refl a
  | cons i ids ih => exact le_trans (le_max_left a i) (ih (max a i))

theorem maxIndex_nonneg (ids : List Int) : 0 ≤ maxIndex ids :=
  foldl_max_init_le ids 0

theorem getD_map_lt {α β : Type} (f : α → β) (l : List α) (i : Nat)
    (hi : i < l.length) (d : β) (d' : α) :
    (l.map f).getD i d = f (l.getD i d') := by
  induction l generalizing i with
  | nil => simp at hi
  | cons a l ih =>
    cases i with
    | zero => rfl
    | succ i =>
      simp only [List.map_cons, List.getD_cons_succ]
      exact ih i (by simpa using hi)

theorem distinct_nonblack_le (tbl : List Vec3) (tys ids : List Int) :
    ((segColors tbl tys ids).filter (fun c => decide (c ≠ black))).toFinset.card ≤
      tbl.length := by
  have hsub : ((segColors tbl tys ids).filter (fun c => decide (c ≠ black))).toFinset ⊆
      tbl.toFinset := by
    intro c hc
    simp only [List.mem_toFinset, List.mem_filter, decide_eq_true_eq] at hc ⊢
    rcases segColors_mem tbl tys ids c hc.1 with h | h
    · exact absurd h hc.2
    · exact h
  exact le_trans (Finset.card_le_card hsub) tbl.toFinset_card_le

/-- C1: after any surface-mesh triangles marshal (either branch), the
f:triangle_range values of the faces, in face iteration order, form a
disjoint partition of the interval of produced triangle indices: every
index in [0, count_triangles) is contained in exactly one face's range,
and every non-empty range (first ≤ last) satisfies
0 ≤ first ≤ last < count_triangles. -/
theorem c1_triangle_range_partition (recompute : MeshCore → List Vec3)
    (tess : Nat → TessOut) (m : SurfaceMesh) (d : TrianglesDrawable) :
    ∃ rngs : List (Int × Int),
      (update_data_mesh_triangles recompute tess m d).model.franges = some rngs ∧
      rngs.length = m.core.faces.length ∧
      (∀ t : Int, 0 ≤ t →
        t < ((update_data_mesh_triangles recompute tess m d).count_triangles : Int) →
        countIn rngs t = 1) ∧
      (∀ r ∈ rngs, r.1 ≤ r.2 →
        0 ≤ r.1 ∧
        r.2 < ((update_data_mesh_triangles recompute tess m d).count_triangles : Int)) := by
  obtain ⟨h1, h2⟩ := marshal_franges_eq recompute tess m d
  refine ⟨scanRanges (branchNums tess m) 0, h1, ?_, ?_, ?_⟩
  · rw [scanRanges_length, branchNums_length]
  · intro t ht0 htl
    rw [h2] at htl
    refine countIn_scanRanges_one _ 0 t (by simpa using ht0) ?_
    simpa using htl
  · intro r hr _
    have hb := scanRanges_mem_bounds _ 0 r hr
    rw [h2]
    constructor
    · simpa using hb.1
    · simpa using hb.2

/-- C1 witness: the partition property instantiated on the concrete quad
mesh of scenario S3. -/
theorem c1_witness :
    ∃ rngs : List (Int × Int),
      (update_data_mesh_triangles recompute0 tess0 quadMesh d0).model.franges = some rngs ∧
      rngs.length = quadMesh.core.faces.length ∧
      (∀ t : Int, 0 ≤ t →
        t < ((update_data_mesh_triangles recompute0 tess0 quadMesh d0).count_triangles : Int) →
        countIn rngs t = 1) ∧
      (∀ r ∈ rngs, r.1 ≤ r.2 →
        0 ≤ r.1 ∧
        r.2 < ((update_data_mesh_triangles recompute0 tess0 quadMesh d0).count_triangles : Int)) :=
  c1_triangle_range_partition recompute0 tess0 quadMesh d0

/-- C2: after the per-face-color branch (Branch A), the uploaded position,
normal, and color streams all have exactly 3 * count_triangles entries,
per-vertex-color is set true, and the element buffer is released so the
drawable draws non-indexed. -/
theorem c2_branchA_streams (recompute : MeshCore → List Vec3)
    (tess : Nat → TessOut) (m : SurfaceMesh) (d : TrianglesDrawable)
    (fc : Nat → Vec3) (hfc : m.fcolor = some fc) :
    (update_data_mesh_triangles recompute tess m d).drawable.vertex_buffer.length =
      3 * (update_data_mesh_triangles recompute tess m d).count_triangles ∧
    (update_data_mesh_triangles recompute tess m d).drawable.normal_buffer.length =
      3 * (update_data_mesh_triangles recompute tess m d).count_triangles ∧
    (update_data_mesh_triangles recompute tess m d).drawable.color_buffer.length =
      3 * (update_data_mesh_triangles recompute tess m d).count_triangles ∧
    (update_data_mesh_triangles recompute tess m d).drawable.per_vertex_color = true ∧
    (update_data_mesh_triangles recompute tess m d).drawable.index_buffer = none := by
  rcases m with ⟨core, vn, vc, vt, fcol, fr⟩
  cases hfc
  have h := loopA_eq tess fc core.faces 0
  simp only [update_data_mesh_triangles]
  refine ⟨?_, ?_, ?_, by trivial, by trivial⟩
  · rw [h.2.2.1, h.2.1]; omega
  · rw [h.2.2.2.1, h.2.1]; omega
  · rw [h.2.2.2.2, h.2.1]; omega

/-- C2 witness: Branch A stream shape on the concrete quad with a face
color (scenario S4). -/
theorem c2_witness :
    (update_data_mesh_triangles recompute0 tessQuad quadMeshF d0).drawable.vertex_buffer.length =
      3 * (update_data_mesh_triangles recompute0 tessQuad quadMeshF d0).count_triangles ∧
    (update_data_mesh_triangles recompute0 tessQuad quadMeshF d0).drawable.normal_buffer.length =
      3 * (update_data_mesh_triangles recompute0 tessQuad quadMeshF d0).count_triangles ∧
    (update_data_mesh_triangles recompute0 tessQuad quadMeshF d0).drawable.color_buffer.length =
      3 * (update_data_mesh_triangles recompute0 tessQuad quadMeshF d0).count_triangles ∧
    (update_data_mesh_triangles recompute0 tessQuad quadMeshF d0).drawable.per_vertex_color = true ∧
    (update_data_mesh_triangles recompute0 tessQuad quadMeshF d0).drawable.index_buffer = none :=
  c2_branchA_streams recompute0 tessQuad quadMeshF d0 (fun _ => (1, 0, 0)) rfl

/-- C3: after the per-vertex branch (Branch B), the uploaded index buffer
has exactly 3 * count_triangles entries and every index is a valid offset
into the uploaded vertex buffer. -/
theorem c3_branchB_indices (recompute : MeshCore → List Vec3)
    (tess : Nat → TessOut) (m : SurfaceMesh) (d : TrianglesDrawable)
    (hfc : m.fcolor = none) (hwf : MeshWF m.core) :
    ∃ inds : List Nat,
      (update_data_mesh_triangles recompute tess m d).drawable.index_buffer = some inds ∧
      inds.length = 3 * (update_data_mesh_triangles recompute tess m d).count_triangles ∧
      (update_data_mesh_triangles recompute tess m d).drawable.vertex_buffer.length = m.core.nv ∧
      ∀ i ∈ inds, i < (update_data_mesh_triangles recompute tess m d).drawable.vertex_buffer.length := by
  rcases m with ⟨core, vn, vc, vt, fcol, fr⟩
  cases hfc
  have h := loopB_eq core core.faces 0
  simp only [update_data_mesh_triangles]
  refine ⟨(core.faces.map (fanIndices core)).flatten, by rw [h], ?_, ?_, ?_⟩
  · rw [h, flatten_fanIndices_length]
    simp
  · exact hwf.1
  · intro i hi
    rw [List.mem_flatten] at hi
    obtain ⟨l, hl, hil⟩ := hi
    rw [List.mem_map] at hl
    obtain ⟨f, hf, rfl⟩ := hl
    have := fanIndices_mem_lt core hwf f hf i hil
    rw [hwf.1]
    exact this

/-- C3 witness: the index-validity property on the concrete quad mesh of
scenario S3, with the well-formedness hypotheses checked by evaluation. -/
theorem c3_witness :
    ∃ inds : List Nat,
      (update_data_mesh_triangles recompute0 tess0 quadMesh d0).drawable.index_buffer = some inds ∧
      inds.length = 3 * (update_data_mesh_triangles recompute0 tess0 quadMesh d0).count_triangles ∧
      (update_data_mesh_triangles recompute0 tess0 quadMesh d0).drawable.vertex_buffer.length =
        quadMesh.core.nv ∧
      ∀ i ∈ inds,
        i < (update_data_mesh_triangles recompute0 tess0 quadMesh d0).drawable.vertex_buffer.length :=
  c3_branchB_indices recompute0 tess0 quadMesh d0 rfl (by decide)

/-- C4: the fan triangulation of Branch B fixes va = to_vertex of the
face's first halfedge and, walking cur from next(next(start)) until it
returns to start, emits the triangle (va, from_vertex cur, to_vertex cur)
at each step; on the single convex quad of scenario S3 the marshal
produces the index buffer [0,1,2, 0,2,3] and triangle_range (0, 1). -/
theorem c4_fan_triangulation (m : MeshCore) (va start cur fuel : Nat)
    (h : cur ≠ start) :
    (fanLoop m va start (fuel + 1) cur =
      (va :: m.from_vertex cur :: m.to_vertex cur ::
        (fanLoop m va start fuel (m.next_halfedge cur)).1,
       (fanLoop m va start fuel (m.next_halfedge cur)).2 + 1)) ∧
    (∀ f : Nat, fanResult m f =
      fanLoop m (m.to_vertex (m.halfedge f)) (m.halfedge f) (m.nh + 1)
        (m.next_halfedge (m.next_halfedge (m.halfedge f)))) ∧
    (update_data_mesh_triangles recompute0 tess0 quadMesh d0).drawable.index_buffer =
      some [0, 1, 2, 0, 2, 3] ∧
    (update_data_mesh_triangles recompute0 tess0 quadMesh d0).model.franges =
      some [(0, 1)] := by
  refine ⟨?_, fun f => rfl, by decide, by decide⟩
  rw [fanLoop]
  simp [h]

/-- C4 witness: the loop-step equation applied at the quad's first fan
step (cur = 2, start = 0). -/
theorem c4_witness :
    (fanLoop quadCore 0 0 3 2 =
      (0 :: quadCore.from_vertex 2 :: quadCore.to_vertex 2 ::
        (fanLoop quadCore 0 0 2 (quadCore.next_halfedge 2)).1,
       (fanLoop quadCore 0 0 2 (quadCore.next_halfedge 2)).2 + 1)) ∧
    (∀ f : Nat, fanResult quadCore f =
      fanLoop quadCore (quadCore.to_vertex (quadCore.halfedge f)) (quadCore.halfedge f)
        (quadCore.nh + 1)
        (quadCore.next_halfedge (quadCore.next_halfedge (quadCore.halfedge f)))) ∧
    (update_data_mesh_triangles recompute0 tess0 quadMesh d0).drawable.index_buffer =
      some [0, 1, 2, 0, 2, 3] ∧
    (update_data_mesh_triangles recompute0 tess0 quadMesh d0).model.franges =
      some [(0, 1)] :=
  c4_fan_triangulation quadCore 0 0 2 2 (by decide)

/-- C5: in the point-cloud marshal with both segmentation properties
present, the emitted color stream is black exactly where primitive_type is
-1 and the color-table entry at primitive_index otherwise; the color table
has maxIndex + 1 entries (one more than the maximal primitive_index);
hence at most that many distinct non-black colors are emitted, and two
vertices with equal primitive_index and primitive_type different from -1
receive equal colors. -/
theorem c5_segmentation_colors (st : Settings) (rng : Nat → Vec3)
    (m : PointCloud) (d : PointsDrawable) (tys ids : List Int)
    (hty : m.ptype = some tys) (hid : m.pindex = some ids)
    (hlen : tys.length = ids.length) :
    (update_data_pointcloud_points st rng m d).color_buffer =
      segColors ((List.range (maxIndex ids + 1).toNat).map rng) tys ids ∧
    (((List.range (maxIndex ids + 1).toNat).map rng).length : Int) = maxIndex ids + 1 ∧
    (∀ i, i < tys.length →
      (update_data_pointcloud_points st rng m d).color_buffer.getD i black =
        (if tys.getD i 0 = -1 then black
         else ((List.range (maxIndex ids + 1).toNat).map rng).getD (ids.getD i 0).toNat black)) ∧
    (((update_data_pointcloud_points st rng m d).color_buffer.filter
        (fun c => decide (c ≠ black))).toFinset.card : Int) ≤ maxIndex ids + 1 ∧
    (update_data_pointcloud_points st rng m d).per_vertex_color = true ∧
    (∀ i j, i < tys.length → j < tys.length →
      ids.getD i 0 = ids.getD j 0 → tys.getD i 0 ≠ -1 → tys.getD j 0 ≠ -1 →
      (update_data_pointcloud_points st rng m d).color_buffer.getD i black =
        (update_data_pointcloud_points st rng m d).color_buffer.getD j black) := by
  rcases m with ⟨pts, vn, vc, pt, pi⟩
  cases hty
  cases hid
  have hbuf : (update_data_pointcloud_points st rng
      { points := pts, vnormal := vn, vcolor := vc, ptype := some tys,
        pindex := some ids } d).color_buffer =
      segColors ((List.range (maxIndex ids + 1).toNat).map rng) tys ids := rfl
  have hlen2 : (((List.range (maxIndex ids + 1).toNat).map rng).length : Int) =
      maxIndex ids + 1 := by
    simp only [List.length_map, List.length_range]
    have := maxIndex_nonneg ids
    omega
  refine ⟨hbuf, hlen2, ?_, ?_, rfl, ?_⟩
  · intro i hi
    rw [hbuf]
    exact segColors_getD _ tys ids i hlen hi
  · rw [hbuf]
    have hc := distinct_nonblack_le ((List.range (maxIndex ids + 1).toNat).map rng) tys ids
    have := maxIndex_nonneg ids
    simp only [List.length_map, List.length_range] at hc
    omega
  · intro i j hi hj hij hti htj
    rw [hbuf, segColors_getD _ tys ids i hlen hi, segColors_getD _ tys ids j hlen hj,
      if_neg hti, if_neg htj, hij]

/-- C5 witness: the segmentation color properties on the concrete cloud of
scenario S2. -/
theorem c5_witness :
    (update_data_pointcloud_points st0 rng0 pcSeg dp0).color_buffer =
      segColors ((List.range (maxIndex [0, 0, 1, 0] + 1).toNat).map rng0) [0, 0, 1, -1] [0, 0, 1, 0] ∧
    (((List.range (maxIndex [0, 0, 1, 0] + 1).toNat).map rng0).length : Int) =
      maxIndex [0, 0, 1, 0] + 1 ∧
    (∀ i, i < [(0 : Int), 0, 1, -1].length →
      (update_data_pointcloud_points st0 rng0 pcSeg dp0).color_buffer.getD i black =
        (if [(0 : Int), 0, 1, -1].getD i 0 = -1 then black
         else ((List.range (maxIndex [0, 0, 1, 0] + 1).toNat).map rng0).getD
           ([(0 : Int), 0, 1, 0].getD i 0).toNat black)) ∧
    (((update_data_pointcloud_points st0 rng0 pcSeg dp0).color_buffer.filter
        (fun c => decide (c ≠ black))).toFinset.card : Int) ≤ maxIndex [0, 0, 1, 0] + 1 ∧
    (update_data_pointcloud_points st0 rng0 pcSeg dp0).per_vertex_color = true ∧
    (∀ i j, i < [(0 : Int), 0, 1, -1].length → j < [(0 : Int), 0, 1, -1].length →
      [(0 : Int), 0, 1, 0].getD i 0 = [(0 : Int), 0, 1, 0].getD j 0 →
      [(0 : Int), 0, 1, -1].getD i 0 ≠ -1 → [(0 : Int), 0, 1, -1].getD j 0 ≠ -1 →
      (update_data_pointcloud_points st0 rng0 pcSeg dp0).color_buffer.getD i black =
        (update_data_pointcloud_points st0 rng0 pcSeg dp0).color_buffer.getD j black) :=
  c5_segmentation_colors st0 rng0 pcSeg dp0 [0, 0, 1, -1] [0, 0, 1, 0] rfl rfl rfl

/-- C6 counterexample: on a mesh that already carries v:normal, the
triangles marshal still invokes the per-vertex normal recompute (line 130
runs unconditionally) and the stored v:normal values are overwritten, so
the recompute is not restricted to the absent case. -/
theorem c6_counterexample :
    (update_data_mesh_triangles recompute0 tess0 quadMeshN d0).normal_recomputes ≠ 0 ∧
    (update_data_mesh_triangles recompute0 tess0 quadMeshN d0).model.vnormal ≠
      some [(1, 0, 0), (1, 0, 0), (1, 0, 0), (1, 0, 0)] := by
  constructor <;> decide

/-- C6 amended: the per-vertex normal recompute is invoked exactly once by
every surface-mesh triangles marshal, unconditionally, and v:normal ends
up holding the recomputed values whether or not it existed before; the
guarded recompute inside Branch B never adds an invocation because
v:normal is always present by that point. -/
theorem c6_normals_always_recomputed (recompute : MeshCore → List Vec3)
    (tess : Nat → TessOut) (m : SurfaceMesh) (d : TrianglesDrawable) :
    (update_data_mesh_triangles recompute tess m d).normal_recomputes = 1 ∧
    (update_data_mesh_triangles recompute tess m d).model.vnormal =
      some (recompute m.core) := by
  rcases m with ⟨core, vn, vc, vt, fcol, fr⟩
  cases fcol <;> exact ⟨rfl, rfl⟩

/-- C7 counterexample: the surface-mesh points overload (renderer.cpp line
99) has no asserts at all; calling it with a null model is an unchecked
null dereference, not an assertion failure. -/
theorem c7_counterexample :
    mesh_points_guard true false true = CallOutcome.nullDeref ∧
    mesh_points_guard true false true ≠ CallOutcome.assertFailure := by
  constructor <;> decide

/-- C7 amended: with a null model, a null drawable, or a missing v:point,
no update_data overload completes normally; but only the point-cloud
points overload and the surface-mesh triangles overload assert, and only
on null arguments -- every other overload, and a missing v:point in every
overload, is an unchecked null dereference (undefined behavior), not an
assertion failure. -/
theorem c7_precondition_outcomes (mn dn hp : Bool)
    (hbad : mn = true ∨ dn = true ∨ hp = false) :
    (pointcloud_points_guard mn dn hp ≠ CallOutcome.completes ∧
     mesh_points_guard mn dn hp ≠ CallOutcome.completes ∧
     mesh_triangles_guard mn dn hp ≠ CallOutcome.completes ∧
     mesh_lines_guard mn dn hp ≠ CallOutcome.completes ∧
     graph_points_guard mn dn hp ≠ CallOutcome.completes ∧
     graph_lines_guard mn dn hp ≠ CallOutcome.completes) ∧
    ((pointcloud_points_guard mn dn hp = CallOutcome.assertFailure) ↔ (mn || dn) = true) ∧
    ((mesh_triangles_guard mn dn hp = CallOutcome.assertFailure) ↔ (mn || dn) = true) ∧
    mesh_points_guard mn dn hp = CallOutcome.nullDeref ∧
    mesh_lines_guard mn dn hp = CallOutcome.nullDeref ∧
    graph_points_guard mn dn hp = CallOutcome.nullDeref ∧
    graph_lines_guard mn dn hp = CallOutcome.nullDeref := by
  cases mn <;> cases dn <;> cases hp <;>
    first
    | exact absurd hbad (by decide)
    | decide

/-- C7 witness: the amended outcome description applied at a null model
with a live drawable and v:point present. -/
theorem c7_witness :
    (pointcloud_points_guard true false true ≠ CallOutcome.completes ∧
     mesh_points_guard true false true ≠ CallOutcome.completes ∧
     mesh_triangles_guard true false true ≠ CallOutcome.completes ∧
     mesh_lines_guard true false true ≠ CallOutcome.completes ∧
     graph_points_guard true false true ≠ CallOutcome.completes ∧
     graph_lines_guard true false true ≠ CallOutcome.completes) ∧
    ((pointcloud_points_guard true false true = CallOutcome.assertFailure) ↔ (true || false) = true) ∧
    ((mesh_triangles_guard true false true = CallOutcome.assertFailure) ↔ (true || false) = true) ∧
    mesh_points_guard true false true = CallOutcome.nullDeref ∧
    mesh_lines_guard true false true = CallOutcome.nullDeref ∧
    graph_points_guard true false true = CallOutcome.nullDeref ∧
    graph_lines_guard true false true = CallOutcome.nullDeref :=
  c7_precondition_outcomes true false true (Or.inl rfl)

/-- C8: in a surface-mesh triangles marshal, a face whose triangle count
is zero (in Branch B, any face whose fan walk stops immediately) receives
the empty inclusive range (count, count - 1) at the current counter, the
counter is unchanged by that face, and the face contributes nothing to the
output streams of its branch. -/
theorem c8_empty_range (recompute : MeshCore → List Vec3)
    (tess : Nat → TessOut) (m : SurfaceMesh) (d : TrianglesDrawable) (i : Nat)
    (hi : i < m.core.faces.length)
    (hz : (branchNums tess m).getD i 0 = 0) :
    (update_data_mesh_triangles recompute tess m d).model.franges =
      some (scanRanges (branchNums tess m) 0) ∧
    (scanRanges (branchNums tess m) 0).getD i ((0 : Int), (0 : Int)) =
      ((sumBefore (branchNums tess m) i : Int),
       (sumBefore (branchNums tess m) i : Int) - 1) ∧
    sumBefore (branchNums tess m) (i + 1) = sumBefore (branchNums tess m) i ∧
    (m.fcolor = none → fanIndices m.core (m.core.faces.getD i 0) = []) ∧
    (∀ fc, m.fcolor = some fc →
      triExpand (tess (m.core.faces.getD i 0)).verts (fc (m.core.faces.getD i 0))
        (tess (m.core.faces.getD i 0)).tris = ([], [], [])) := by
  have hlen : i < (branchNums tess m).length := by
    rw [branchNums_length]; exact hi
  refine ⟨(marshal_franges_eq recompute tess m d).1, ?_, ?_, ?_, ?_⟩
  · rw [scanRanges_getD _ 0 i hlen, hz]
    simp
  · rw [sumBefore_succ _ i hlen, hz]
    exact Nat.add_zero _
  · intro hfc
    simp only [branchNums, hfc] at hz
    rw [getD_map_lt (numTriB m.core) m.core.faces i hi 0 0] at hz
    have := fanIndices_length m.core (m.core.faces.getD i 0)
    rw [hz] at this
    simpa using this
  · intro fc hfc
    simp only [branchNums, hfc] at hz
    rw [getD_map_lt (fun f => (tess f).tris.length) m.core.faces i hi 0 0] at hz
    have ht : (tess (m.core.faces.getD i 0)).tris = [] := by
      simpa using hz
    rw [ht]
    rfl

/-- C8 witness: the empty-range property on the degenerate one-face mesh. -/
theorem c8_witness :
    (update_data_mesh_triangles recompute0 tess0 monoMesh d0).model.franges =
      some (scanRanges (branchNums tess0 monoMesh) 0) ∧
    (scanRanges (branchNums tess0 monoMesh) 0).getD 0 ((0 : Int), (0 : Int)) =
      ((sumBefore (branchNums tess0 monoMesh) 0 : Int),
       (sumBefore (branchNums tess0 monoMesh) 0 : Int) - 1) ∧
    sumBefore (branchNums tess0 monoMesh) (0 + 1) = sumBefore (branchNums tess0 monoMesh) 0 ∧
    (monoMesh.fcolor = none →
      fanIndices monoMesh.core (monoMesh.core.faces.getD 0 0) = []) ∧
    (∀ fc, monoMesh.fcolor = some fc →
      triExpand (tess0 (monoMesh.core.faces.getD 0 0)).verts
        (fc (monoMesh.core.faces.getD 0 0))
        (tess0 (monoMesh.core.faces.getD 0 0)).tris = ([], [], [])) :=
  c8_empty_range recompute0 tess0 monoMesh d0 0 (by decide) (by decide)

/-- C9: every marshaller is idempotent under a fixed random color stream:
a second call on the unchanged model and the drawable produced by the
first call yields the same drawable state, and for the triangles marshal
the same model state (f:triangle_range and v:normal) as well. -/
theorem c9_idempotent (st : Settings) (rng : Nat → Vec3)
    (recompute : MeshCore → List Vec3) (tess : Nat → TessOut)
    (pc : PointCloud) (sm sm2 sm3 : SurfaceMesh) (g : Graph)
    (d1 d2 d5 : PointsDrawable) (d3 d6 : LinesDrawable) (d4 : TrianglesDrawable) :
    update_data_pointcloud_points st rng pc (update_data_pointcloud_points st rng pc d1) =
      update_data_pointcloud_points st rng pc d1 ∧
    update_data_mesh_points st sm2 (update_data_mesh_points st sm2 d2) =
      update_data_mesh_points st sm2 d2 ∧
    update_data_mesh_lines st sm3 (update_data_mesh_lines st sm3 d3) =
      update_data_mesh_lines st sm3 d3 ∧
    ((update_data_mesh_triangles recompute tess
        (update_data_mesh_triangles recompute tess sm d4).model
        (update_data_mesh_triangles recompute tess sm d4).drawable).model =
      (update_data_mesh_triangles recompute tess sm d4).model ∧
     (update_data_mesh_triangles recompute tess
        (update_data_mesh_triangles recompute tess sm d4).model
        (update_data_mesh_triangles recompute tess sm d4).drawable).drawable =
      (update_data_mesh_triangles recompute tess sm d4).drawable) ∧
    update_data_graph_points g (update_data_graph_points g d5) =
      update_data_graph_points g d5 ∧
    update_data_graph_lines g (update_data_graph_lines g d6) =
      update_data_graph_lines g d6 := by
  refine ⟨?_, rfl, rfl, ?_, rfl, rfl⟩
  · rcases pc with ⟨pts, vn, vc, pt, pi⟩
    cases pt <;> cases pi <;> cases vn <;> cases vc <;> rfl
  · rcases sm with ⟨core, vn, vc, vt, fcol, fr⟩
    cases fcol <;> cases vc <;> cases vt <;> exact ⟨rfl, rfl⟩

/-- C10: in Branch B with no v:color the triangles marshal leaves the
per-vertex-color flag untouched (it keeps the drawable's previous value),
whereas the point-cloud marshal's no-color fallback explicitly sets the
flag to false. -/
theorem c10_pvc_frame (recompute : MeshCore → List Vec3) (tess : Nat → TessOut)
    (st : Settings) (rng : Nat → Vec3) (m : SurfaceMesh) (dt : TrianglesDrawable)
    (pc : PointCloud) (dp : PointsDrawable)
    (h1 : m.fcolor = none) (h2 : m.vcolor = none)
    (h3 : pc.vcolor = none) (h4 : pc.ptype = none ∨ pc.pindex = none) :
    (update_data_mesh_triangles recompute tess m dt).drawable.per_vertex_color =
      dt.per_vertex_color ∧
    (update_data_pointcloud_points st rng pc dp).per_vertex_color = false := by
  constructor
  · rcases m with ⟨core, vn, vc, vt, fcol, fr⟩
    cases h1
    cases h2
    cases vt <;> rfl
  · rcases pc with ⟨pts, vn, vc, pt, pi⟩
    cases h3
    cases pt <;> cases pi <;> cases vn <;>
      first
      | rfl
      | (rcases h4 with h | h <;> simp at h)

/-- C10 witness: the flag behavior on the concrete quad mesh (flag was
false before the call and stays false) and the plain point cloud. -/
theorem c10_witness :
    (update_data_mesh_triangles recompute0 tess0 quadMesh d0).drawable.per_vertex_color =
      d0.per_vertex_color ∧
    (update_data_pointcloud_points st0 rng0 pcPlain dp0).per_vertex_color = false :=
  c10_pvc_frame recompute0 tess0 st0 rng0 quadMesh d0 pcPlain dp0 rfl rfl rfl (Or.inl rfl)
